import Mathlib

/-!
Verification of the flashcard study tool (camicaillie/flashyy).

The development shallowly embeds the spaced-repetition Scheduler and the
Deck State Controller of `src/components/FlashcardDeck.tsx`.  The component
state (`useState` fields) becomes an explicit `DeckState` record; each event
handler becomes a pure function `DeckState → DeckState` (or `Option DeckState`
when the handler can dereference `undefined`).  Timestamps are `Int`
milliseconds, the floating-point ease factor is `ℚ`, and collaborator side
effects (the durable card-state store and the session log) are recorded in
explicit logs inside the state.
-/

/-- The three-level difficulty rating. -/
inductive Difficulty
  | easy
  | medium
  | hard
deriving DecidableEq, Repr

/-- A flashcard with optional spaced-repetition scheduling fields, embedding
the `SRSCard` interface.  `dueDate` and `lastReviewed` are timestamps in
milliseconds; `interval` is in days. -/
structure SRSCard where
  id : Nat
  front : String
  back : String
  difficulty : Option Difficulty
  favorite : Bool
  dueDate : Option Int
  interval : Option Nat
  easeFactor : Option ℚ
  repetitions : Option Nat
  lastReviewed : Option Int
deriving DecidableEq, Repr

/-- Milliseconds in one day. -/
def msPerDay : Int := 86400000

/-- Initial ease factor given to a card on its first review. -/
def initialEase : ℚ := 5 / 2

/-- Floor below which the ease factor never falls. -/
def minEase : ℚ := 13 / 10

/-- Floor of a rational, clamped to `Nat`. -/
def ratFloorNat (q : ℚ) : Nat := q.floor.toNat

/-- Modelled from the spec: the Scheduler file `src/utils/spacedRepetition.ts`
is not among the provided sources, so `calculateNextReview` is reconstructed
from the contract in spec section 4.1.  On "hard": repetitions reset to 0, the
ease factor drops (floored at `minEase`), the interval resets to the fixed
minimum of 1 day.  On "medium": repetitions increment, the ease factor is
nudged slightly down (floored), the interval grows by a moderate multiplier
bounded below by one day over the previous interval.  On "easy": repetitions
increment, the ease factor grows, and the first two repetitions use the seed
intervals 1 day and 6 days before multiplicative growth.  Every call stamps
`lastReviewed` with `now`, sets `difficulty` to the rating, and sets
`dueDate` to `now` plus the new interval. -/
def calculateNextReview (card : SRSCard) (rating : Difficulty) (now : Int) :
    SRSCard :=
  let ef := card.easeFactor.getD initialEase
  let prevInterval := card.interval.getD 0
  let reps := card.repetitions.getD 0
  match rating with
  | .hard =>
    let newEf := max minEase (ef - 1 / 5)
    let newInterval : Nat := 1
    { card with
      difficulty := some .hard
      repetitions := some 0
      easeFactor := some newEf
      interval := some newInterval
      dueDate := some (now + (newInterval : Int) * msPerDay)
      lastReviewed := some now }
  | .medium =>
    let newEf := max minEase (ef - 3 / 20)
    let newInterval : Nat :=
      max (prevInterval + 1) (ratFloorNat ((prevInterval : ℚ) * (6 / 5)))
    { card with
      difficulty := some .medium
      repetitions := some (reps + 1)
      easeFactor := some newEf
      interval := some newInterval
      dueDate := some (now + (newInterval : Int) * msPerDay)
      lastReviewed := some now }
  | .easy =>
    let newEf := ef + 3 / 20
    let newInterval : Nat :=
      if reps = 0 then 1
      else if reps = 1 then 6
      else max (prevInterval + 1) (ratFloorNat ((prevInterval : ℚ) * ef))
    { card with
      difficulty := some .easy
      repetitions := some (reps + 1)
      easeFactor := some newEf
      interval := some newInterval
      dueDate := some (now + (newInterval : Int) * msPerDay)
      lastReviewed := some now }

/-- Modelled from the spec: `getDueCards` of the missing Scheduler file.
Returns the subset whose `dueDate` is present and at most `now`, or whose
`dueDate` is absent (new cards are always due). -/
def getDueCards (now : Int) (cards : List SRSCard) : List SRSCard :=
  cards.filter fun c =>
    match c.dueDate with
    | none => true
    | some d => d ≤ now

/-- Order used by `sortCardsByDueDate`: absent due dates sort first. -/
def dueLE (a b : SRSCard) : Bool :=
  match a.dueDate, b.dueDate with
  | none, _ => true
  | some _, none => false
  | some x, some y => x ≤ y

/-- Stable insertion of a card into a due-date-sorted list: the new card is
placed before the first element it does not strictly follow. -/
def insertByDue (a : SRSCard) : List SRSCard → List SRSCard
  | [] => [a]
  | b :: rest => if dueLE a b then a :: b :: rest else b :: insertByDue a rest

/-- Modelled from the spec: `sortCardsByDueDate` of the missing Scheduler
file.  Stable ascending sort by `dueDate`, cards lacking a due date first. -/
def sortCardsByDueDate : List SRSCard → List SRSCard
  | [] => []
  | a :: rest => insertByDue a (sortCardsByDueDate rest)

/-- The filter dropdown of `FlashcardDeck`. -/
inductive FilterType
  | all
  | favorites
  | easy
  | medium
  | hard
  | due
deriving DecidableEq, Repr

/-- The per-pass rating counters (`reviewResults`). -/
structure ReviewResults where
  easy : Nat
  medium : Nat
  hard : Nat
deriving DecidableEq, Repr

/-- A flushed ReviewSession record (`flashcards-study-sessions` entry); the
wall-clock `date` field of the source record is not modelled. -/
structure StudySession where
  cardsReviewed : Nat
  performance : ReviewResults
  category : String
deriving DecidableEq, Repr

/-- The component state of `FlashcardDeck`, plus explicit logs for the two
external collaborators: `writes` records each `saveSRSData(categoryId, cards)`
call and `sessionLog` each appended study session.  `now` is the injected
clock. -/
structure DeckState where
  currentIndex : Nat
  cards : List SRSCard
  isReviewingHard : Bool
  showReviewPrompt : Bool
  showScoreboard : Bool
  reviewedCardIds : List Nat
  reviewResults : ReviewResults
  searchQuery : String
  filterType : FilterType
  useSRS : Bool
  hardCardsForReview : List SRSCard
  reviewIndex : Nat
  categoryId : String
  categoryName : String
  sessionLog : List StudySession
  writes : List (String × List SRSCard)
  now : Int
deriving DecidableEq, Repr

/-- `cards.filter(card => card.difficulty === 'hard')`. -/
def hardCards (st : DeckState) : List SRSCard :=
  st.cards.filter fun c => c.difficulty = some Difficulty.hard

/-- JS set insertion into `reviewedCardIds`. -/
def insertId (ids : List Nat) (i : Nat) : List Nat :=
  if ids.contains i then ids else i :: ids

/-- `card.difficulty === filterType` for the difficulty branches of the filter
dropdown; a non-difficulty filter value matches no card (in particular
selecting `due` with SRS disabled compares `difficulty` against the string
"due" and matches nothing). -/
def matchesDifficulty (ft : FilterType) (c : SRSCard) : Bool :=
  match ft with
  | .easy => c.difficulty = some Difficulty.easy
  | .medium => c.difficulty = some Difficulty.medium
  | .hard => c.difficulty = some Difficulty.hard
  | _ => false

/-- `startsWithChars needle hay` holds when `needle` is a prefix of `hay`. -/
def startsWithChars : List Char → List Char → Bool
  | [], _ => true
  | _ :: _, [] => false
  | a :: as, b :: bs => a = b && startsWithChars as bs

/-- `containsChars needle hay` holds when `needle` occurs contiguously in
`hay` (the JS `String.includes`). -/
def containsChars (needle : List Char) : List Char → Bool
  | [] => startsWithChars needle []
  | b :: bs => startsWithChars needle (b :: bs) || containsChars needle bs

/-- The JS `String.prototype.trim`, over the character list. -/
def trimChars (l : List Char) : List Char :=
  ((l.dropWhile Char.isWhitespace).reverse.dropWhile Char.isWhitespace).reverse

/-- The JS `String.prototype.toLowerCase`, over the character list. -/
def lowerChars (l : List Char) : List Char := l.map Char.toLower

/-- Case-insensitive substring test used by the search box. -/
def cardMatchesQuery (q : String) (c : SRSCard) : Bool :=
  let lq := lowerChars q.data
  containsChars lq (lowerChars c.front.data) ||
    containsChars lq (lowerChars c.back.data)

/-- `getFilteredCards` of `FlashcardDeck`: in HardReview mode the live hard
cards minus the reviewed ones, otherwise the deck run through the dropdown
filter, the search query, and (for the `due` filter with SRS on) the
due-date sort. -/
def getFilteredCards (st : DeckState) : List SRSCard :=
  if st.isReviewingHard then
    (hardCards st).filter fun c => ¬ st.reviewedCardIds.contains c.id
  else
    let filtered := st.cards
    let filtered :=
      if st.filterType = FilterType.favorites then
        filtered.filter (·.favorite)
      else if st.filterType = FilterType.due ∧ st.useSRS then
        getDueCards st.now st.cards
      else if st.filterType ≠ FilterType.all then
        filtered.filter (matchesDifficulty st.filterType)
      else filtered
    let filtered :=
      if trimChars st.searchQuery.data ≠ [] then
        filtered.filter (cardMatchesQuery st.searchQuery)
      else filtered
    if st.useSRS ∧ st.filterType = FilterType.due then
      sortCardsByDueDate filtered
    else filtered

/-- The `useEffect` that persists the deck: it runs after any commit that
changed `cards` or `useSRS` (every `setCards` call produces a fresh array
reference) and saves only when `useSRS` is true. -/
def appendWriteIfSRS (st : DeckState) : DeckState :=
  if st.useSRS then
    { st with writes := st.writes ++ [(st.categoryId, st.cards)] }
  else st

/-- The deck update shared by both rating handlers: map over the deck and
replace the card whose id matches, via the Scheduler when SRS is enabled and
by a difficulty-only update otherwise. -/
def applyRatingToDeck (cards : List SRSCard) (cardId : Nat) (r : Difficulty)
    (useSRS : Bool) (now : Int) : List SRSCard :=
  cards.map fun c =>
    if c.id = cardId then
      if useSRS then calculateNextReview c r now
      else { c with difficulty := some r }
    else c

/-- Bump the counter of `reviewResults` for one rating. -/
def bumpResults (res : ReviewResults) (r : Difficulty) : ReviewResults :=
  match r with
  | .easy => { res with easy := res.easy + 1 }
  | .medium => { res with medium := res.medium + 1 }
  | .hard => { res with hard := res.hard + 1 }

/-- Total of the per-pass counters. -/
def totalResults (res : ReviewResults) : Nat :=
  res.easy + res.medium + res.hard

/-- The session record built from the per-pass counters. -/
def sessionOfResults (res : ReviewResults) (category : String) :
    StudySession :=
  { cardsReviewed := totalResults res
    performance := res
    category := if category = "" then "General" else category }

/-- The scoreboard `useEffect`: when the scoreboard is first shown it appends
a ReviewSession record with the per-pass counters, unless no rating happened
in the pass. -/
def flushScoreboardSession (st : DeckState) : DeckState :=
  if totalResults st.reviewResults = 0 then st
  else
    { st with
      sessionLog :=
        st.sessionLog ++ [sessionOfResults st.reviewResults st.categoryName] }

/-- The body of `handleNext`, parametrised by the `currentCards` and
`hardCards` values captured by the handler's closure (when invoked from
`handleDifficultySelect` these are the pre-rating values). -/
def handleNextCore (st : DeckState) (view : List SRSCard)
    (hardClosure : List SRSCard) : DeckState :=
  if view.length = 0 then st
  else if st.isReviewingHard ∧ view.length ≤ 1 then st
  else
    let nextIndex := (st.currentIndex + 1) % max 1 view.length
    if nextIndex = 0 ∧ st.isReviewingHard = false ∧ 0 < hardClosure.length ∧
        st.filterType = FilterType.all ∧ st.searchQuery = "" then
      { st with showReviewPrompt := true }
    else
      { st with currentIndex := nextIndex }

/-- `handleNext`: advance the cursor through the filtered view, or raise the
review prompt when an unfiltered, unsearched browsing pass wraps and hard
cards exist. -/
def handleNext (st : DeckState) : DeckState :=
  handleNextCore st (getFilteredCards st) (hardCards st)

/-- `handlePrevious`: step the cursor backwards, wrapping modulo the view
length; a no-op on an empty view. -/
def handlePrevious (st : DeckState) : DeckState :=
  let view := getFilteredCards st
  if view.length = 0 then st
  else
    { st with
      currentIndex := (st.currentIndex + view.length - 1) % max 1 view.length }

/-- `handleDifficultySelect`: the rating handler wired to the browsing-mode
card.  Returns `none` when the source would throw a TypeError on the
undefined `currentCards[currentIndex]`.  In the browsing-mode branch the
`currentCards[currentIndex].id` dereference sits inside the `prevCards.map`
callback, so with the cursor off the end of the filtered view it is evaluated
— and throws — exactly when the deck is nonempty; on an empty deck the
callback never runs, the `setCards` call still commits a fresh (empty) array
so the persistence effect fires, and `handleNext` is reached.  In the
review-mode branch the dereference `currentCard.id` sits inside the
`reviewedCardIds` set updater, which runs once unconditionally, so that
branch throws whenever the cursor resolves no card.  The review-mode branch
is retained from the source although the review UI wires
`handleReviewDifficultySelect` instead. -/
def handleDifficultySelect (r : Difficulty) (st : DeckState) :
    Option DeckState :=
  let view := getFilteredCards st
  if st.isReviewingHard then
    match view.get? st.currentIndex with
    | none => none
    | some cur =>
      let results2 := bumpResults st.reviewResults r
      let reviewed2 := insertId st.reviewedCardIds cur.id
      let newCards := applyRatingToDeck st.cards cur.id r st.useSRS st.now
      let st1 := appendWriteIfSRS
        { st with
          cards := newCards
          reviewResults := results2
          reviewedCardIds := reviewed2 }
      let remaining := (hardCards st).filter fun c => ¬ (reviewed2.contains c.id)
      if remaining.length = 0 then
        some (flushScoreboardSession { st1 with showScoreboard := true })
      else if remaining.length ≤ st.currentIndex then
        some { st1 with currentIndex := remaining.length - 1 }
      else some st1
  else
    match view.get? st.currentIndex with
    | none =>
      if st.cards = [] then
        some (handleNextCore (appendWriteIfSRS st) view (hardCards st))
      else none
    | some cur =>
      let newCards := applyRatingToDeck st.cards cur.id r st.useSRS st.now
      let st1 := appendWriteIfSRS { st with cards := newCards }
      some (handleNextCore st1 view (hardCards st))

/-- `handleToggleFavorite` without a card argument: flips the favorite flag
of the card under the cursor; guarded no-op when the view is empty or the
cursor is out of bounds. -/
def handleToggleFavorite (st : DeckState) : DeckState :=
  match (getFilteredCards st).get? st.currentIndex with
  | none => st
  | some cur =>
    appendWriteIfSRS
      { st with
        cards := st.cards.map fun c =>
          if c.id = cur.id then { c with favorite := ¬ c.favorite } else c }

/-- `handleToggleFavorite` with an explicit card (the review-mode variant). -/
def handleToggleFavoriteCard (card : SRSCard) (st : DeckState) : DeckState :=
  appendWriteIfSRS
    { st with
      cards := st.cards.map fun c =>
        if c.id = card.id then { c with favorite := ¬ c.favorite } else c }

/-- `handleReviewHardCards`: enter a HardReview pass over the snapshot of
currently hard cards; a no-op (with a toast) when no card is hard. -/
def handleReviewHardCards (st : DeckState) : DeckState :=
  let hardCardsToReview := hardCards st
  if hardCardsToReview.length = 0 then st
  else
    { st with
      reviewResults := ⟨0, 0, 0⟩
      reviewedCardIds := []
      hardCardsForReview := hardCardsToReview
      reviewIndex := 0
      isReviewingHard := true }

/-- `handleReviewDifficultySelect`: the rating handler wired to the
HardReview card.  Iterates the frozen `hardCardsForReview` snapshot by
`reviewIndex`; when the rated card was the last one the scoreboard is shown
(and its effect flushes the session), otherwise the index advances. -/
def handleReviewDifficultySelect (r : Difficulty) (st : DeckState) :
    DeckState :=
  if ¬ st.isReviewingHard ∨ st.hardCardsForReview.length = 0 then st
  else
    let currentCard := st.hardCardsForReview.get? st.reviewIndex
    let results2 := bumpResults st.reviewResults r
    let reviewed2 :=
      match currentCard with
      | some c => if c.id ≠ 0 then insertId st.reviewedCardIds c.id
                  else st.reviewedCardIds
      | none => st.reviewedCardIds
    let newCards :=
      match currentCard with
      | some c => applyRatingToDeck st.cards c.id r st.useSRS st.now
      | none => st.cards
    let st1 := appendWriteIfSRS
      { st with
        cards := newCards
        reviewResults := results2
        reviewedCardIds := reviewed2 }
    let nextIndex := st.reviewIndex + 1
    if st.hardCardsForReview.length ≤ nextIndex then
      flushScoreboardSession { st1 with showScoreboard := true }
    else
      { st1 with reviewIndex := nextIndex }

/-- `handleExitReview`: the explicit exit action of a HardReview pass. -/
def handleExitReview (st : DeckState) : DeckState :=
  { st with
    isReviewingHard := false
    showScoreboard := false
    reviewedCardIds := []
    reviewIndex := 0
    hardCardsForReview := [] }

/-- `progress.reviewed`: the number of cards carrying a difficulty. -/
def progressReviewed (st : DeckState) : Nat :=
  (st.cards.filter fun c => c.difficulty ≠ none).length

/-- `saveStudySession`: flush a session record; in review mode from the
per-pass counters, in normal mode from the whole-deck difficulty counts;
empty sessions are not saved. -/
def saveStudySessionFn (st : DeckState) : DeckState :=
  if st.isReviewingHard then
    if totalResults st.reviewResults = 0 then st
    else
      { st with
        sessionLog :=
          st.sessionLog ++ [sessionOfResults st.reviewResults st.categoryName] }
  else
    let e := (st.cards.filter fun c => c.difficulty = some Difficulty.easy).length
    let m := (st.cards.filter fun c => c.difficulty = some Difficulty.medium).length
    let h := (st.cards.filter fun c => c.difficulty = some Difficulty.hard).length
    if e + m + h = 0 then st
    else
      { st with
        sessionLog := st.sessionLog ++
          [{ cardsReviewed := e + m + h
             performance := ⟨e, m, h⟩
             category := if st.categoryName = "" then "General"
                         else st.categoryName }] }

/-- The card produced by `handleRestart` for the baseline card at 0-based
position `i`: id reassigned to `i + 1`, all scheduling fields and the
difficulty cleared, the favorite flag taken from the pre-reset card whose id
was `i + 1` (false when none exists). -/
def resetCardAt (current : List SRSCard) (i : Nat) (card : SRSCard) :
    SRSCard :=
  { card with
    id := i + 1
    favorite :=
      match current.find? (fun c => c.id = i + 1) with
      | some c => c.favorite
      | none => false
    difficulty := none
    dueDate := none
    interval := none
    easeFactor := none
    repetitions := none
    lastReviewed := none }

/-- The mapped reset of `handleRestart`, carrying the running index. -/
def resetCardsFrom (current : List SRSCard) (i : Nat) :
    List SRSCard → List SRSCard
  | [] => []
  | card :: rest => resetCardAt current i card :: resetCardsFrom current (i + 1) rest

/-- `initialCards.map((card, index) => ...)` of `handleRestart`. -/
def resetDeck (baseline current : List SRSCard) : List SRSCard :=
  resetCardsFrom current 0 baseline

/-- `handleRestart`: flush the running session when any card was reviewed,
reset the UI state, reset the cards (preserving favorites by recomputed id)
and persist the reset deck with a direct `saveSRSData` call; the persistence
effect then also fires because `cards` changed. -/
def handleRestart (baseline : List SRSCard) (st : DeckState) : DeckState :=
  let st0 := if 0 < progressReviewed st then saveStudySessionFn st else st
  let resetCards := resetDeck baseline st.cards
  let st1 :=
    { st0 with
      isReviewingHard := false
      currentIndex := 0
      showReviewPrompt := false
      showScoreboard := false
      reviewedCardIds := []
      reviewResults := ⟨0, 0, 0⟩
      searchQuery := ""
      filterType := FilterType.all
      cards := resetCards }
  let st2 := { st1 with writes := st1.writes ++ [(st.categoryId, resetCards)] }
  appendWriteIfSRS st2

/-- The SRS toggle button: flips `useSRS`; the persistence effect re-runs
because its `useSRS` dependency changed and saves when the new value is
true. -/
def handleToggleSRS (st : DeckState) : DeckState :=
  appendWriteIfSRS { st with useSRS := ¬ st.useSRS }

/-- The cards of a HardReview pass still to be presented: the frozen
snapshot from `reviewIndex` on while the pass is running, nothing once the
scoreboard is up or the pass is over. -/
def remainingQueue (st : DeckState) : List SRSCard :=
  if st.isReviewingHard ∧ st.showScoreboard = false then
    st.hardCardsForReview.drop st.reviewIndex
  else []

/-- A concrete card used by witnesses and counterexamples. -/
def sampleCard (i : Nat) (d : Option Difficulty) : SRSCard :=
  { id := i, front := "f", back := "b", difficulty := d, favorite := false,
    dueDate := none, interval := none, easeFactor := none, repetitions := none,
    lastReviewed := none }

/-- A concrete freshly-loaded deck state used by witnesses and
counterexamples. -/
def baseState (cs : List SRSCard) : DeckState :=
  { currentIndex := 0, cards := cs, isReviewingHard := false,
    showReviewPrompt := false, showScoreboard := false, reviewedCardIds := [],
    reviewResults := ⟨0, 0, 0⟩, searchQuery := "", filterType := FilterType.all,
    useSRS := true, hardCardsForReview := [], reviewIndex := 0,
    categoryId := "general", categoryName := "general", sessionLog := [],
    writes := [], now := 0 }

/-- A state one rating into a HardReview pass over two hard cards. -/
def stC4 : DeckState :=
  handleReviewDifficultySelect Difficulty.easy
    (handleReviewHardCards
      (baseState
        [sampleCard 1 (some Difficulty.hard),
         sampleCard 2 (some Difficulty.hard)]))

/-- A browsing state whose deck holds one unrated card while the filter
dropdown is on "hard": the deck is nonempty but the filtered view is
empty. -/
def stC5 : DeckState :=
  { baseState [sampleCard 1 none] with filterType := FilterType.hard }

/-- A browsing state on the last card of a two-card deck whose first card is
rated hard. -/
def stC6 : DeckState :=
  { baseState [sampleCard 1 (some Difficulty.hard), sampleCard 2 none] with
    currentIndex := 1 }

/-- A deck of two hard cards, used to enter a concrete HardReview pass. -/
def stW0 : DeckState :=
  baseState
    [sampleCard 1 (some Difficulty.hard), sampleCard 2 (some Difficulty.hard)]

/-- The HardReview pass just entered from `stW0`. -/
def stW3 : DeckState := handleReviewHardCards stW0

/-- A one-card deck state with SRS mode disabled. -/
def stC10 : DeckState := { baseState [sampleCard 1 none] with useSRS := false }

theorem appendWriteIfSRS_eq (s : DeckState) :
    appendWriteIfSRS s =
      { s with
        writes :=
          if s.useSRS then s.writes ++ [(s.categoryId, s.cards)]
          else s.writes } := by
  unfold appendWriteIfSRS
  split <;> rfl

theorem flushScoreboardSession_eq (s : DeckState) :
    flushScoreboardSession s =
      { s with
        sessionLog :=
          if totalResults s.reviewResults = 0 then s.sessionLog
          else s.sessionLog ++
            [sessionOfResults s.reviewResults s.categoryName] } := by
  unfold flushScoreboardSession
  split <;> rfl

/-- C1: for every card (new or scheduled) and every rating,
`calculateNextReview` stamps `lastReviewed` with the supplied current time
and returns a `dueDate` at or after that time. -/
theorem calculateNextReview_stamps_now (card : SRSCard) (r : Difficulty)
    (now : Int) :
    (calculateNextReview card r now).lastReviewed = some now ∧
    ∃ d, (calculateNextReview card r now).dueDate = some d ∧ now ≤ d := by
  cases r <;>
    exact ⟨rfl, _, rfl,
      le_add_of_nonneg_right
        (mul_nonneg (Int.natCast_nonneg _) (by norm_num [msPerDay]))⟩

/-- C2: rating "hard" resets `repetitions` to 0, resets `interval` to the
fixed minimum of one day regardless of the prior interval, floors the
decreased ease factor at `minEase`, and sets `dueDate` to now plus the new
interval. -/
theorem calculateNextReview_hard_resets (card : SRSCard) (now : Int)
    (h : minEase ≤ card.easeFactor.getD initialEase) :
    (calculateNextReview card Difficulty.hard now).repetitions = some 0 ∧
    (calculateNextReview card Difficulty.hard now).interval = some 1 ∧
    (∃ e, (calculateNextReview card Difficulty.hard now).easeFactor = some e ∧
      minEase ≤ e ∧ e ≤ card.easeFactor.getD initialEase) ∧
    (calculateNextReview card Difficulty.hard now).dueDate =
      some (now + 1 * msPerDay) := by
  refine ⟨rfl, rfl, ⟨_, rfl, le_max_left _ _, ?_⟩, rfl⟩
  exact max_le h (sub_le_self _ (by norm_num))

theorem calculateNextReview_hard_resets_witness :
    minEase ≤ (sampleCard 1 none).easeFactor.getD initialEase ∧
    ((calculateNextReview (sampleCard 1 none) Difficulty.hard 0).repetitions =
        some 0 ∧
      (calculateNextReview (sampleCard 1 none) Difficulty.hard 0).interval =
        some 1 ∧
      (∃ e,
        (calculateNextReview (sampleCard 1 none) Difficulty.hard 0).easeFactor =
          some e ∧
        minEase ≤ e ∧ e ≤ (sampleCard 1 none).easeFactor.getD initialEase) ∧
      (calculateNextReview (sampleCard 1 none) Difficulty.hard 0).dueDate =
        some (0 + 1 * msPerDay)) :=
  ⟨by norm_num [sampleCard, initialEase, minEase],
    calculateNextReview_hard_resets (sampleCard 1 none) 0
      (by norm_num [sampleCard, initialEase, minEase])⟩

/-- C4 counterexample: in a HardReview pass where exactly one rating has
occurred and the queue is not yet empty, the explicit exit action leaves the
session log empty — no partial ReviewSession record is flushed, contradicting
the claim that one is flushed whenever at least one rating occurred. -/
theorem exitReview_midpass_discards_despite_rating :
    stC4.isReviewingHard = true ∧
    stC4.showScoreboard = false ∧
    totalResults stC4.reviewResults = 1 ∧
    remainingQueue stC4 ≠ [] ∧
    stC4.sessionLog = [] ∧
    (handleExitReview stC4).sessionLog = [] ∧
    (handleExitReview stC4).isReviewingHard = false := by decide

/-- C4 amended: abandoning a HardReview pass via the explicit exit action
always discards the partial ReviewSession counters without persisting them,
regardless of how many ratings occurred in the pass; a partial session is
flushed only when the pass completes and the scoreboard is shown. -/
theorem exitReview_never_flushes (st : DeckState) :
    (handleExitReview st).sessionLog = st.sessionLog ∧
    (handleExitReview st).writes = st.writes ∧
    (handleExitReview st).isReviewingHard = false ∧
    (handleExitReview st).showScoreboard = false ∧
    (handleExitReview st).hardCardsForReview = [] :=
  ⟨rfl, rfl, rfl, rfl, rfl⟩

/-- C5: at a nonempty deck whose filtered view is empty, the navigation
handlers are guarded no-ops and the review-mode rating handler is a guarded
no-op, but the browsing-mode rating handler evaluates
`currentCards[currentIndex].id` inside the deck map callback on an undefined
element and throws (embedded as `none`) instead of being a no-op. -/
theorem emptyView_navigation_noop_but_rating_throws :
    stC5.cards ≠ [] ∧
    getFilteredCards stC5 = [] ∧
    handleNext stC5 = stC5 ∧
    handlePrevious stC5 = stC5 ∧
    handleReviewDifficultySelect Difficulty.easy stC5 = stC5 ∧
    handleDifficultySelect Difficulty.easy stC5 = none := by decide

/-- C8: a rating applied with a `cardId` matching no card of the deck leaves
every card unchanged (the defensive map matches nothing), in both SRS-enabled
and SRS-disabled modes, and cannot fail. -/
theorem applyRating_unknown_id_noop (cards : List SRSCard) (cardId : Nat)
    (r : Difficulty) (useSRS : Bool) (now : Int)
    (h : ∀ c ∈ cards, c.id ≠ cardId) :
    applyRatingToDeck cards cardId r useSRS now = cards := by
  unfold applyRatingToDeck
  exact (List.map_congr_left fun c hc => by simp [h c hc]).trans
    (List.map_id cards)

theorem applyRating_unknown_id_noop_witness :
    (∀ c ∈ [sampleCard 1 none], c.id ≠ 5) ∧
    applyRatingToDeck [sampleCard 1 none] 5 Difficulty.easy true 0 =
      [sampleCard 1 none] :=
  ⟨by decide,
    applyRating_unknown_id_noop [sampleCard 1 none] 5 Difficulty.easy true 0
      (by decide)⟩

theorem resetCardsFrom_length (current : List SRSCard) (j : Nat)
    (l : List SRSCard) : (resetCardsFrom current j l).length = l.length := by
  induction l generalizing j with
  | nil => rfl
  | cons a rest ih => simp [resetCardsFrom, ih]

theorem resetCardsFrom_get (current : List SRSCard) (l : List SRSCard)
    (j i : Nat) :
    (resetCardsFrom current j l).get? i =
      (l.get? i).map fun b => resetCardAt current (j + i) b := by
  induction l generalizing j i with
  | nil => simp [resetCardsFrom]
  | cons a rest ih =>
    cases i with
    | zero => simp [resetCardsFrom]
    | succ k =>
      have hidx : j + 1 + k = j + (k + 1) := by omega
      have h1 : (resetCardsFrom current j (a :: rest)).get? (k + 1) =
          (resetCardsFrom current (j + 1) rest).get? k := rfl
      rw [h1, ih (j + 1) k, hidx]
      rfl

/-- C7: resetting the deck gives, for the baseline card at position `i`, a
card with id `i + 1`, all scheduling fields and the difficulty absent, front
and back from the baseline, and the favorite flag of the pre-reset card whose
id was `i + 1` (false when none exists). -/
theorem resetDeck_resets_and_preserves_favorite
    (baseline current : List SRSCard) (i : Nat) (b : SRSCard)
    (h : baseline.get? i = some b) :
    (resetDeck baseline current).length = baseline.length ∧
    ∃ c, (resetDeck baseline current).get? i = some c ∧
      c.id = i + 1 ∧ c.front = b.front ∧ c.back = b.back ∧
      c.difficulty = none ∧ c.dueDate = none ∧ c.interval = none ∧
      c.easeFactor = none ∧ c.repetitions = none ∧ c.lastReviewed = none ∧
      c.favorite =
        ((current.find? fun x => x.id = i + 1).map fun x => x.favorite).getD
          false := by
  refine ⟨resetCardsFrom_length current 0 baseline,
    resetCardAt current i b, ?_, rfl, rfl, rfl, rfl, rfl, rfl, rfl, rfl, rfl,
    ?_⟩
  · rw [resetDeck, resetCardsFrom_get, h]
    rw [Nat.zero_add]
    rfl
  · unfold resetCardAt
    cases current.find? fun x => x.id = i + 1 <;> rfl

theorem resetDeck_resets_and_preserves_favorite_witness :
    [sampleCard 7 none, sampleCard 8 none].get? 0 = some (sampleCard 7 none) ∧
    ((resetDeck [sampleCard 7 none, sampleCard 8 none]
        [{ sampleCard 1 (some Difficulty.easy) with favorite := true }]).length =
      [sampleCard 7 none, sampleCard 8 none].length ∧
    ∃ c,
      (resetDeck [sampleCard 7 none, sampleCard 8 none]
          [{ sampleCard 1 (some Difficulty.easy) with favorite := true }]).get?
          0 = some c ∧
      c.id = 0 + 1 ∧ c.front = (sampleCard 7 none).front ∧
      c.back = (sampleCard 7 none).back ∧
      c.difficulty = none ∧ c.dueDate = none ∧ c.interval = none ∧
      c.easeFactor = none ∧ c.repetitions = none ∧ c.lastReviewed = none ∧
      c.favorite =
        (([{ sampleCard 1 (some Difficulty.easy) with favorite := true }].find?
            fun x => x.id = 0 + 1).map fun x => x.favorite).getD false) :=
  ⟨rfl,
    resetDeck_resets_and_preserves_favorite
      [sampleCard 7 none, sampleCard 8 none]
      [{ sampleCard 1 (some Difficulty.easy) with favorite := true }] 0
      (sampleCard 7 none) rfl⟩

/-- C9: with SRS disabled a rating rewrites only the matched card's
`difficulty` and preserves every other field of that card and every other
card; toggling the SRS mode leaves the cards (hence `difficulty`)
untouched. -/
theorem nonSRS_rating_difficulty_only (cards : List SRSCard) (cardId : Nat)
    (r : Difficulty) (now : Int) (i : Nat) (c0 : SRSCard) (st : DeckState)
    (h : cards.get? i = some c0) :
    (∃ c1, (applyRatingToDeck cards cardId r false now).get? i = some c1 ∧
      (c0.id = cardId →
        c1.difficulty = some r ∧ c1.id = c0.id ∧ c1.front = c0.front ∧
        c1.back = c0.back ∧ c1.favorite = c0.favorite ∧
        c1.dueDate = c0.dueDate ∧ c1.interval = c0.interval ∧
        c1.easeFactor = c0.easeFactor ∧ c1.repetitions = c0.repetitions ∧
        c1.lastReviewed = c0.lastReviewed) ∧
      (c0.id ≠ cardId → c1 = c0)) ∧
    (handleToggleSRS st).cards = st.cards ∧
    (handleToggleSRS st).useSRS = !st.useSRS := by
  refine
    ⟨⟨if c0.id = cardId then { c0 with difficulty := some r } else c0,
      ?_, ?_, ?_⟩, ?_, ?_⟩
  · rw [applyRatingToDeck, List.get?_map, h]
    rfl
  · intro hc
    rw [if_pos hc]
    exact ⟨rfl, rfl, rfl, rfl, rfl, rfl, rfl, rfl, rfl, rfl⟩
  · intro hc
    rw [if_neg hc]
  · simp [handleToggleSRS, appendWriteIfSRS_eq]
  · simp [handleToggleSRS, appendWriteIfSRS_eq]

theorem nonSRS_rating_difficulty_only_witness :
    [sampleCard 1 none, sampleCard 2 none].get? 0 = some (sampleCard 1 none) ∧
    ((∃ c1,
        (applyRatingToDeck [sampleCard 1 none, sampleCard 2 none] 1
            Difficulty.medium false 0).get? 0 = some c1 ∧
        ((sampleCard 1 none).id = 1 →
          c1.difficulty = some Difficulty.medium ∧
          c1.id = (sampleCard 1 none).id ∧
          c1.front = (sampleCard 1 none).front ∧
          c1.back = (sampleCard 1 none).back ∧
          c1.favorite = (sampleCard 1 none).favorite ∧
          c1.dueDate = (sampleCard 1 none).dueDate ∧
          c1.interval = (sampleCard 1 none).interval ∧
          c1.easeFactor = (sampleCard 1 none).easeFactor ∧
          c1.repetitions = (sampleCard 1 none).repetitions ∧
          c1.lastReviewed = (sampleCard 1 none).lastReviewed) ∧
        ((sampleCard 1 none).id ≠ 1 → c1 = sampleCard 1 none)) ∧
      (handleToggleSRS (baseState [])).cards = (baseState []).cards ∧
      (handleToggleSRS (baseState [])).useSRS = !(baseState []).useSRS) :=
  ⟨rfl,
    nonSRS_rating_difficulty_only [sampleCard 1 none, sampleCard 2 none] 1
      Difficulty.medium 0 0 (sampleCard 1 none) (baseState []) rfl⟩

/-- C6: advancing forward moves the cursor to `(currentIndex + 1) mod view
length`; when that step wraps to 0 while the filter dropdown is on "all", the
search box is empty, the mode is Browsing and at least one card is rated
hard, the review prompt is raised instead and the cursor stays put. -/
theorem handleNext_wraps_or_prompts (st : DeckState)
    (hbrowse : st.isReviewingHard = false)
    (hne : getFilteredCards st ≠ []) :
    ((st.currentIndex + 1) % (getFilteredCards st).length = 0 ∧
        st.filterType = FilterType.all ∧ st.searchQuery = "" ∧
        hardCards st ≠ [] →
      handleNext st = { st with showReviewPrompt := true }) ∧
    ((st.currentIndex + 1) % (getFilteredCards st).length ≠ 0 ∨
        st.filterType ≠ FilterType.all ∨ st.searchQuery ≠ "" ∨
        hardCards st = [] →
      handleNext st =
        { st with
          currentIndex :=
            (st.currentIndex + 1) % (getFilteredCards st).length }) := by
  have hlen : ¬ (getFilteredCards st).length = 0 := by
    simpa [List.length_eq_zero] using hne
  have hmax :
      max 1 (getFilteredCards st).length = (getFilteredCards st).length :=
    Nat.max_eq_right (Nat.one_le_iff_ne_zero.mpr hlen)
  simp only [handleNext, handleNextCore, hmax]
  rw [if_neg hlen, if_neg (by simp [hbrowse])]
  constructor
  · rintro ⟨h0, hf, hs, hh⟩
    rw [if_pos ⟨h0, hbrowse, List.length_pos.mpr hh, hf, hs⟩]
  · intro hcase
    rw [if_neg ?_]
    rintro ⟨h0, -, hpos, hf, hs⟩
    rcases hcase with h | h | h | h
    · exact h h0
    · exact h hf
    · exact h hs
    · rw [h] at hpos
      exact Nat.lt_irrefl 0 hpos

theorem handleNext_wraps_or_prompts_witness :
    (stC6.isReviewingHard = false ∧ getFilteredCards stC6 ≠ [] ∧
      (stC6.currentIndex + 1) % (getFilteredCards stC6).length = 0 ∧
      stC6.filterType = FilterType.all ∧ stC6.searchQuery = "" ∧
      hardCards stC6 ≠ []) ∧
    handleNext stC6 = { stC6 with showReviewPrompt := true } :=
  ⟨by decide,
    (handleNext_wraps_or_prompts stC6 (by decide) (by decide)).1 (by decide)⟩

theorem drop_eq_cons_of_get (l : List SRSCard) (n : Nat) (a : SRSCard)
    (h : l.get? n = some a) : l.drop n = a :: l.drop (n + 1) := by
  induction l generalizing n with
  | nil => simp at h
  | cons x xs ih =>
    cases n with
    | zero =>
      simp at h
      subst h
      rfl
    | succ m =>
      have h' : xs.get? m = some a := by simpa using h
      simpa using ih m h'

theorem id_not_mem_map_drop_of_nodup (l : List SRSCard) (n : Nat)
    (a : SRSCard) (hn : (l.map fun c => c.id).Nodup)
    (h : l.get? n = some a) :
    a.id ∉ (l.drop (n + 1)).map fun c => c.id := by
  induction l generalizing n with
  | nil => simp at h
  | cons x xs ih =>
    cases n with
    | zero =>
      simp at h
      subst h
      simp at hn
      simpa using hn.1
    | succ m =>
      have hn' : (xs.map fun c => c.id).Nodup := by
        simp at hn
        exact hn.2
      have h' : xs.get? m = some a := by simpa using h
      simpa using ih m hn' h'

theorem appendWriteIfSRS_hardCardsForReview (s : DeckState) :
    (appendWriteIfSRS s).hardCardsForReview = s.hardCardsForReview := by
  rw [appendWriteIfSRS_eq]

theorem appendWriteIfSRS_isReviewingHard (s : DeckState) :
    (appendWriteIfSRS s).isReviewingHard = s.isReviewingHard := by
  rw [appendWriteIfSRS_eq]

theorem appendWriteIfSRS_showScoreboard (s : DeckState) :
    (appendWriteIfSRS s).showScoreboard = s.showScoreboard := by
  rw [appendWriteIfSRS_eq]

theorem appendWriteIfSRS_reviewIndex (s : DeckState) :
    (appendWriteIfSRS s).reviewIndex = s.reviewIndex := by
  rw [appendWriteIfSRS_eq]

theorem appendWriteIfSRS_sessionLog (s : DeckState) :
    (appendWriteIfSRS s).sessionLog = s.sessionLog := by
  rw [appendWriteIfSRS_eq]

theorem flushScoreboardSession_hardCardsForReview (s : DeckState) :
    (flushScoreboardSession s).hardCardsForReview = s.hardCardsForReview := by
  rw [flushScoreboardSession_eq]

theorem flushScoreboardSession_isReviewingHard (s : DeckState) :
    (flushScoreboardSession s).isReviewingHard = s.isReviewingHard := by
  rw [flushScoreboardSession_eq]

theorem flushScoreboardSession_showScoreboard (s : DeckState) :
    (flushScoreboardSession s).showScoreboard = s.showScoreboard := by
  rw [flushScoreboardSession_eq]

theorem flushScoreboardSession_reviewIndex (s : DeckState) :
    (flushScoreboardSession s).reviewIndex = s.reviewIndex := by
  rw [flushScoreboardSession_eq]

/-- C3: a HardReview pass iterates the snapshot of hard cards taken at entry
(`handleReviewHardCards` freezes it and rating never changes it); rating the
presented card with any of the three ratings removes exactly it from the head
of the remaining queue; and, the snapshot ids being distinct, the rated card
is never presented again in the same pass, also when it was rated hard
again. -/
theorem hardReview_frozen_queue (st0 st : DeckState) (r : Difficulty)
    (cur : SRSCard)
    (hrun : st.isReviewingHard = true)
    (hsb : st.showScoreboard = false)
    (hcur : st.hardCardsForReview.get? st.reviewIndex = some cur)
    (hnodup : (st.hardCardsForReview.map fun c => c.id).Nodup) :
    (hardCards st0 ≠ [] →
      (handleReviewHardCards st0).hardCardsForReview = hardCards st0 ∧
      (handleReviewHardCards st0).reviewIndex = 0 ∧
      (handleReviewHardCards st0).isReviewingHard = true) ∧
    (handleReviewDifficultySelect r st).hardCardsForReview =
      st.hardCardsForReview ∧
    remainingQueue st =
      cur :: remainingQueue (handleReviewDifficultySelect r st) ∧
    cur.id ∉
      (remainingQueue (handleReviewDifficultySelect r st)).map fun c =>
        c.id := by
  have hlt : st.reviewIndex < st.hardCardsForReview.length := by
    by_contra hge
    rw [List.get?_eq_none.mpr (Nat.le_of_not_lt hge)] at hcur
    exact Option.noConfusion hcur
  have hL0 : ¬ st.hardCardsForReview.length = 0 := by omega
  have hguard :
      ¬ (¬ st.isReviewingHard = true ∨ st.hardCardsForReview.length = 0) := by
    simp [hrun, hL0]
  have hq : remainingQueue st = st.hardCardsForReview.drop st.reviewIndex := by
    simp [remainingQueue, hrun, hsb]
  have hfrozen : (handleReviewDifficultySelect r st).hardCardsForReview =
      st.hardCardsForReview := by
    simp only [handleReviewDifficultySelect, hcur]
    rw [if_neg hguard]
    by_cases hend : st.hardCardsForReview.length ≤ st.reviewIndex + 1
    · rw [if_pos hend]
      simp [flushScoreboardSession_hardCardsForReview,
        appendWriteIfSRS_hardCardsForReview]
    · rw [if_neg hend]
      simp [appendWriteIfSRS_hardCardsForReview]
  have hrem : remainingQueue (handleReviewDifficultySelect r st) =
      st.hardCardsForReview.drop (st.reviewIndex + 1) := by
    simp only [handleReviewDifficultySelect, hcur]
    rw [if_neg hguard]
    by_cases hend : st.hardCardsForReview.length ≤ st.reviewIndex + 1
    · rw [if_pos hend, List.drop_eq_nil_of_le hend]
      simp [remainingQueue, flushScoreboardSession_isReviewingHard,
        flushScoreboardSession_showScoreboard,
        appendWriteIfSRS_isReviewingHard]
    · rw [if_neg hend]
      simp [remainingQueue, appendWriteIfSRS_isReviewingHard,
        appendWriteIfSRS_showScoreboard, appendWriteIfSRS_hardCardsForReview,
        appendWriteIfSRS_reviewIndex, hrun, hsb]
  refine ⟨?_, hfrozen, ?_, ?_⟩
  · intro h0
    have h0' : ¬ (hardCards st0).length = 0 := by
      simpa [List.length_eq_zero] using h0
    simp only [handleReviewHardCards]
    rw [if_neg h0']
    exact ⟨rfl, rfl, rfl⟩
  · rw [hrem, hq, drop_eq_cons_of_get _ _ _ hcur]
  · rw [hrem]
    exact id_not_mem_map_drop_of_nodup _ _ _ hnodup hcur

theorem hardReview_frozen_queue_witness :
    (stW3.isReviewingHard = true ∧ stW3.showScoreboard = false ∧
      stW3.hardCardsForReview.get? stW3.reviewIndex =
        some (sampleCard 1 (some Difficulty.hard)) ∧
      (stW3.hardCardsForReview.map fun c => c.id).Nodup) ∧
    ((hardCards stW0 ≠ [] →
        (handleReviewHardCards stW0).hardCardsForReview = hardCards stW0 ∧
        (handleReviewHardCards stW0).reviewIndex = 0 ∧
        (handleReviewHardCards stW0).isReviewingHard = true) ∧
      (handleReviewDifficultySelect Difficulty.medium stW3).hardCardsForReview =
        stW3.hardCardsForReview ∧
      remainingQueue stW3 =
        sampleCard 1 (some Difficulty.hard) ::
          remainingQueue (handleReviewDifficultySelect Difficulty.medium stW3) ∧
      (sampleCard 1 (some Difficulty.hard)).id ∉
        (remainingQueue
            (handleReviewDifficultySelect Difficulty.medium stW3)).map
          fun c => c.id) :=
  ⟨by decide,
    hardReview_frozen_queue stW0 stW3 Difficulty.medium
      (sampleCard 1 (some Difficulty.hard)) (by decide) (by decide) (by decide)
      (by decide)⟩

theorem appendWriteIfSRS_writes (s : DeckState) :
    (appendWriteIfSRS s).writes =
      if s.useSRS then s.writes ++ [(s.categoryId, s.cards)] else s.writes := by
  rw [appendWriteIfSRS_eq]

theorem flushScoreboardSession_writes (s : DeckState) :
    (flushScoreboardSession s).writes = s.writes := by
  rw [flushScoreboardSession_eq]

theorem handleNextCore_writes (s : DeckState) (view hardClosure : List SRSCard) :
    (handleNextCore s view hardClosure).writes = s.writes := by
  simp only [handleNextCore]
  split_ifs <;> rfl

theorem saveStudySessionFn_writes (s : DeckState) :
    (saveStudySessionFn s).writes = s.writes := by
  simp only [saveStudySessionFn]
  split_ifs <;> rfl

theorem saveStudySessionFn_useSRS (s : DeckState) :
    (saveStudySessionFn s).useSRS = s.useSRS := by
  simp only [saveStudySessionFn]
  split_ifs <;> rfl

/-- C10 counterexample: with SRS mode disabled, resetting the deck still
persists the full reset deck with a direct `saveSRSData` call, so a
persistence write of the full deck keyed by the category fires while SRS is
disabled, contradicting the claim that such writes fire only when SRS mode is
enabled. -/
theorem restart_persists_with_srs_disabled :
    stC10.useSRS = false ∧ stC10.writes = [] ∧
    (handleRestart [sampleCard 1 none] stC10).useSRS = false ∧
    (handleRestart [sampleCard 1 none] stC10).writes ≠ [] := by decide

/-- C10 amended: while SRS mode is disabled, rating a card (through either
rating handler) and toggling a favorite never write to the durable card-state
store; with SRS enabled the persistence effect fires on every change to the
card array, including favorite toggles; but resetting the deck persists the
reset deck unconditionally, even with SRS mode disabled. -/
theorem writes_fire_only_with_srs_except_restart :
    (∀ st r st', st.useSRS = false → handleDifficultySelect r st = some st' →
      st'.writes = st.writes) ∧
    (∀ st r, st.useSRS = false →
      (handleReviewDifficultySelect r st).writes = st.writes) ∧
    (∀ st, st.useSRS = false →
      (handleToggleFavorite st).writes = st.writes) ∧
    (∀ st card, st.useSRS = false →
      (handleToggleFavoriteCard card st).writes = st.writes) ∧
    (∀ st card, st.useSRS = true →
      (handleToggleFavoriteCard card st).writes.length =
        st.writes.length + 1) ∧
    (∀ st r st', st.useSRS = true → handleDifficultySelect r st = some st' →
      st'.writes.length = st.writes.length + 1) ∧
    (∀ baseline st,
      st.writes.length < (handleRestart baseline st).writes.length) := by
  refine ⟨?_, ?_, ?_, ?_, ?_, ?_, ?_⟩
  · intro st r st' hs h
    simp only [handleDifficultySelect] at h
    split at h
    · split at h
      · exact Option.noConfusion h
      · split at h
        · cases h
          simp [flushScoreboardSession_writes, appendWriteIfSRS_writes, hs]
        · split at h <;>
            (cases h; simp [appendWriteIfSRS_writes, hs])
    · split at h
      · split at h
        · cases h
          simp [handleNextCore_writes, appendWriteIfSRS_writes, hs]
        · exact Option.noConfusion h
      · cases h
        simp [handleNextCore_writes, appendWriteIfSRS_writes, hs]
  · intro st r hs
    simp only [handleReviewDifficultySelect]
    split
    · rfl
    · split <;>
        simp [flushScoreboardSession_writes, appendWriteIfSRS_writes, hs]
  · intro st hs
    simp only [handleToggleFavorite]
    split
    · rfl
    · simp [appendWriteIfSRS_writes, hs]
  · intro st card hs
    simp [handleToggleFavoriteCard, appendWriteIfSRS_writes, hs]
  · intro st card hs
    simp [handleToggleFavoriteCard, appendWriteIfSRS_writes, hs]
  · intro st r st' hs h
    simp only [handleDifficultySelect] at h
    split at h
    · split at h
      · exact Option.noConfusion h
      · split at h
        · cases h
          simp [flushScoreboardSession_writes, appendWriteIfSRS_writes, hs]
        · split at h <;>
            (cases h; simp [appendWriteIfSRS_writes, hs])
    · split at h
      · split at h
        · cases h
          simp [handleNextCore_writes, appendWriteIfSRS_writes, hs]
        · exact Option.noConfusion h
      · cases h
        simp [handleNextCore_writes, appendWriteIfSRS_writes, hs]
  · intro baseline st
    simp only [handleRestart, appendWriteIfSRS_writes]
    split_ifs <;>
      simp [saveStudySessionFn_writes, List.length_append]

theorem writes_fire_only_with_srs_except_restart_witness :
    stC10.useSRS = false ∧
    (handleToggleFavoriteCard (sampleCard 1 none) stC10).writes =
      stC10.writes :=
  ⟨rfl,
    writes_fire_only_with_srs_except_restart.2.2.2.1 stC10 (sampleCard 1 none)
      rfl⟩
